import Mathlib

/-!
Verification of the XEX file analysis tool (src/tools/xextool/xextool.c).

The input file is modelled as a list of byte values (`List Nat`, each
element < 256 for well-formed inputs).  Struct overlays (`fread` into a
packed struct) are modelled as little-endian loads, matching the
little-endian host the tool's byte-swapping helpers assume.
-/

/-- Byte at index `i` of the stream (reads past the end yield 0; all reads
performed by the model are guarded by explicit length checks). -/
def byteAt (f : List Nat) (i : Nat) : Nat := f.getD i 0

/-- Little-endian 32-bit load at offset `p` (raw struct member on a
little-endian host). -/
def leU32At (f : List Nat) (p : Nat) : Nat :=
  byteAt f p + 2 ^ 8 * byteAt f (p + 1) + 2 ^ 16 * byteAt f (p + 2) +
    2 ^ 24 * byteAt f (p + 3)

/-- Little-endian 16-bit load at offset `p`. -/
def leU16At (f : List Nat) (p : Nat) : Nat :=
  byteAt f p + 2 ^ 8 * byteAt f (p + 1)

/-- Big-endian interpretation of the four bytes at offset `p`. -/
def beU32At (f : List Nat) (p : Nat) : Nat :=
  2 ^ 24 * byteAt f p + 2 ^ 16 * byteAt f (p + 1) + 2 ^ 8 * byteAt f (p + 2) +
    byteAt f (p + 3)

/-- `be32_to_cpu` from xextool.c: 32-bit big-endian to host (byte swap). -/
def be32_to_cpu (val : Nat) : Nat :=
  ((val &&& 0xFF000000) >>> 24) |||
  ((val &&& 0x00FF0000) >>> 8) |||
  ((val &&& 0x0000FF00) <<< 8) |||
  ((val &&& 0x000000FF) <<< 24)

/-- `be16_to_cpu` from xextool.c: 16-bit byte swap. -/
def be16_to_cpu (val : Nat) : Nat :=
  ((val &&& 0xFF00) >>> 8) |||
  ((val &&& 0x00FF) <<< 8)

def XEX2_MAGIC : Nat := 0x58455832

def MAX_OPTIONAL_HEADERS : Nat := 100

def DISPLAY_HEADER_LIMIT : Nat := 20

def XEX_HEADER_FILE_FORMAT_INFO : Nat := 0x000003FF

/-- The packed `XEX2_Header` struct, fields as loaded raw from the file
(little-endian host loads; normalization with `be32_to_cpu` happens at use
sites, as in the C code). -/
structure XEX2_Header where
  magic : Nat
  module_flags : Nat
  pe_offset : Nat
  reserved : Nat
  security_offset : Nat
  optional_header_count : Nat
deriving DecidableEq

/-- `fread(&header, sizeof(header), 1, fp)`: succeeds only when all 24
bytes are available. -/
def readHeader (f : List Nat) : Option XEX2_Header :=
  if 24 ≤ f.length then
    some ⟨leU32At f 0, leU32At f 4, leU32At f 8, leU32At f 12, leU32At f 16,
      leU32At f 20⟩
  else none

/-- Outcome of the decode of the format/encryption descriptor
(`FileFormatInfo`). `seekError` models an `fseek` failure: it cannot occur
on a regular file, where `fseek(fp, off, SEEK_SET)` succeeds for any
offset, but the error path exists in the code. -/
inductive DescResult where
  | notAttempted : DescResult
  | seekError : DescResult
  | readError : DescResult
  | ok : Nat → Nat → Nat → DescResult
deriving DecidableEq

/-- Seek to `off` and `fread` the 8-byte `FileFormatInfo`; on success the
three fields are normalized exactly as in the C code. -/
def decodeFileFormatInfo (f : List Nat) (off : Nat) : DescResult :=
  if off + 8 ≤ f.length then
    .ok (be32_to_cpu (leU32At f off)) (be16_to_cpu (leU16At f (off + 4)))
      (be16_to_cpu (leU16At f (off + 6)))
  else .readError

/-- The optional-header loop body: read up to `fuel` 8-byte (key, value)
pairs starting at `pos`; a short read of either half breaks out of the
loop at once (second component records that the loop ended via `break`).
Keys and values are normalized with `be32_to_cpu` as they are read. -/
def scanOptionalHeaders (f : List Nat) (pos : Nat) :
    Nat → List (Nat × Nat) × Bool
  | 0 => ([], false)
  | Nat.succ fuel =>
    if pos + 4 ≤ f.length then
      if pos + 8 ≤ f.length then
        let key := be32_to_cpu (leU32At f pos)
        let value := be32_to_cpu (leU32At f (pos + 4))
        let rest := scanOptionalHeaders f (pos + 8) fuel
        ((key, value) :: rest.1, rest.2)
      else ([], true)
    else ([], true)

/-- The per-entry FILE_FORMAT_INFO check of the loop, applied to the
scanned entries in file order: each matching entry overwrites
`file_format_info_offset` and sets `has_encryption_info`. -/
def ffiFold (entries : List (Nat × Nat)) : Nat × Bool :=
  entries.foldl
    (fun acc e => if e.1 = XEX_HEADER_FILE_FORMAT_INFO then (e.2, true) else acc)
    (0, false)

/-- How `analyze_xex_file` terminated: fatal header read failure, fatal
magic mismatch (carrying the expected and observed values the error
message prints), or success with the decoded primary header. -/
inductive Outcome where
  | fatalTruncatedHeader : Outcome
  | fatalBadMagic : Nat → Nat → Outcome
  | success : XEX2_Header → Outcome
deriving DecidableEq

/-- Observable result of one `analyze_xex_file` run. -/
structure AnalyzeResult where
  outcome : Outcome
  exitCode : Nat
  scanRan : Bool
  entries : List (Nat × Nat)
  scanTruncated : Bool
  ffiOffset : Nat
  hasEncryptionInfo : Bool
  moreHeadersNote : Option Nat
  descriptor : DescResult
deriving DecidableEq

/-- The declared optional-header count, normalized: `opt_count` in the C
code (`be32_to_cpu(header.optional_header_count)`; the raw field sits at
byte offset 20 of the packed header). -/
def optCount (f : List Nat) : Nat := be32_to_cpu (leU32At f 20)

/-- The optional-header table scan step of `analyze_xex_file`: the loop
runs only under the sanity check `opt_count > 0 && opt_count <
MAX_OPTIONAL_HEADERS`, for at most `min opt_count DISPLAY_HEADER_LIMIT`
iterations, starting right after the 24-byte primary header. -/
def scanStep (f : List Nat) : List (Nat × Nat) × Bool :=
  if 0 < optCount f ∧ optCount f < MAX_OPTIONAL_HEADERS then
    scanOptionalHeaders f 24 (min (optCount f) DISPLAY_HEADER_LIMIT)
  else ([], false)

/-- `analyze_xex_file` from xextool.c, on an in-memory byte stream (the
file-open and stat steps cannot fail for a stream that is given).  The
`fread` of the 24-byte primary header succeeds exactly when the stream is
at least 24 bytes long. -/
def analyze_xex_file (f : List Nat) (verbose_mode show_encryption : Bool) :
    AnalyzeResult :=
  if f.length < 24 then
    ⟨.fatalTruncatedHeader, 1, false, [], false, 0, false, none, .notAttempted⟩
  else if be32_to_cpu (leU32At f 0) ≠ XEX2_MAGIC then
    ⟨.fatalBadMagic XEX2_MAGIC (be32_to_cpu (leU32At f 0)), 1, false, [],
      false, 0, false, none, .notAttempted⟩
  else
    ⟨.success ⟨leU32At f 0, leU32At f 4, leU32At f 8, leU32At f 12,
        leU32At f 16, leU32At f 20⟩, 0,
      decide (0 < optCount f ∧ optCount f < MAX_OPTIONAL_HEADERS),
      (scanStep f).1, (scanStep f).2,
      (ffiFold (scanStep f).1).1, (ffiFold (scanStep f).1).2,
      (if verbose_mode = true ∧ (0 < optCount f ∧ optCount f < MAX_OPTIONAL_HEADERS) ∧
          DISPLAY_HEADER_LIMIT < optCount f then
        some (optCount f - DISPLAY_HEADER_LIMIT)
      else none),
      (if (ffiFold (scanStep f).1).2 = true ∧
          (show_encryption = true ∨ verbose_mode = true) then
        decodeFileFormatInfo f (ffiFold (scanStep f).1).1
      else .notAttempted)⟩

/-- Big-endian byte encoding of a 32-bit value. -/
def u32be (v : Nat) : List Nat :=
  [v / 2 ^ 24 % 2 ^ 8, v / 2 ^ 16 % 2 ^ 8, v / 2 ^ 8 % 2 ^ 8, v % 2 ^ 8]

/-- A well-formed 24-byte primary header with the given declared
optional-header count. -/
def mkPrimaryHeader (count : Nat) : List Nat :=
  u32be XEX2_MAGIC ++ u32be 0 ++ u32be 0 ++ u32be 0 ++ u32be 0 ++ u32be count

/-- Every element of the stream is a byte value. -/
def WfFile (f : List Nat) : Prop := ∀ b ∈ f, b < 2 ^ 8

instance (f : List Nat) : Decidable (WfFile f) := by
  unfold WfFile
  infer_instance

def exC1 : List Nat :=
  mkPrimaryHeader 2 ++ u32be 0x3FF ++ u32be 0x100 ++ u32be 0x3FF ++ u32be 0x200

def exC2 : List Nat := mkPrimaryHeader 100 ++ u32be 0x12 ++ u32be 0x34

def exC6 : List Nat :=
  mkPrimaryHeader 5 ++ u32be 7 ++ u32be 1 ++ u32be 8 ++ u32be 2 ++
    u32be 9 ++ u32be 3 ++ [0, 0, 0, 0]

def exC7 : List Nat := mkPrimaryHeader 1 ++ u32be 0x3FF ++ u32be 0x10000

def exC8 : List Nat := mkPrimaryHeader 1 ++ u32be 0x3FF ++ u32be 0

def exC9 : List Nat := mkPrimaryHeader 25

def exC10 : List Nat := mkPrimaryHeader 1 ++ u32be 0x3FF ++ u32be 0

/-- Masking with a byte mask shifted by `k` isolates the byte starting at
bit `k`. -/
lemma and_byte_mask (v k : Nat) :
    v &&& ((2 ^ 8 - 1) <<< k) = (v / 2 ^ k % 2 ^ 8) <<< k := by
  apply Nat.eq_of_testBit_eq
  intro j
  simp only [Nat.testBit_and, Nat.testBit_shiftLeft, Nat.testBit_two_pow_sub_one,
    Nat.testBit_mod_two_pow, ← Nat.shiftRight_eq_div_pow, Nat.testBit_shiftRight]
  by_cases h : k ≤ j
  · have hjk : k + (j - k) = j := by omega
    simp [h, hjk]
    cases v.testBit j <;> simp
  · simp [h]

lemma mask_hi : (0xFF000000 : Nat) = (2 ^ 8 - 1) <<< 24 := by decide

lemma mask_mid2 : (0x00FF0000 : Nat) = (2 ^ 8 - 1) <<< 16 := by decide

lemma mask_mid1 : (0x0000FF00 : Nat) = (2 ^ 8 - 1) <<< 8 := by decide

lemma mask_lo : (0x000000FF : Nat) = (2 ^ 8 - 1) <<< 0 := by decide

lemma mask16_hi : (0xFF00 : Nat) = (2 ^ 8 - 1) <<< 8 := by decide

lemma mask16_lo : (0x00FF : Nat) = (2 ^ 8 - 1) <<< 0 := by decide

/-- Left shift followed by a smaller right shift. -/
lemma shiftLeft_then_shiftRight (x m n : Nat) (h : n ≤ m) :
    (x <<< m) >>> n = x <<< (m - n) := by
  rw [Nat.shiftLeft_eq, Nat.shiftLeft_eq, Nat.shiftRight_eq_div_pow]
  have hsplit : (2 : Nat) ^ m = 2 ^ (m - n) * 2 ^ n := by
    rw [← pow_add]
    congr 1
    omega
  rw [hsplit, ← Nat.mul_assoc,
    Nat.mul_div_cancel _ (Nat.pos_pow_of_pos n (by norm_num))]

/-- Or of byte values placed in disjoint byte lanes is their sum. -/
lemma or_bytes (a b c d : Nat) (ha : a < 2 ^ 8) (hb : b < 2 ^ 8)
    (hc : c < 2 ^ 8) :
    a ||| 2 ^ 8 * b ||| 2 ^ 16 * c ||| 2 ^ 24 * d =
      2 ^ 24 * d + 2 ^ 16 * c + 2 ^ 8 * b + a := by
  have s1 : a ||| 2 ^ 8 * b = 2 ^ 8 * b + a := by
    rw [Nat.lor_comm, ← Nat.mul_add_lt_is_or ha]
  have hba : 2 ^ 8 * b + a < 2 ^ 16 := by omega
  have s2 : 2 ^ 8 * b + a ||| 2 ^ 16 * c = 2 ^ 16 * c + (2 ^ 8 * b + a) := by
    rw [Nat.lor_comm, ← Nat.mul_add_lt_is_or hba]
  have hcba : 2 ^ 16 * c + (2 ^ 8 * b + a) < 2 ^ 24 := by omega
  have s3 : 2 ^ 16 * c + (2 ^ 8 * b + a) ||| 2 ^ 24 * d =
      2 ^ 24 * d + (2 ^ 16 * c + (2 ^ 8 * b + a)) := by
    rw [Nat.lor_comm, ← Nat.mul_add_lt_is_or hcba]
  rw [s1, s2, s3]
  ring

/-- Arithmetic characterization of the 32-bit byte swap. -/
lemma be32_to_cpu_eq (v : Nat) :
    be32_to_cpu v =
      2 ^ 24 * (v % 2 ^ 8) + 2 ^ 16 * (v / 2 ^ 8 % 2 ^ 8) +
        2 ^ 8 * (v / 2 ^ 16 % 2 ^ 8) + v / 2 ^ 24 % 2 ^ 8 := by
  unfold be32_to_cpu
  rw [mask_hi, mask_mid2, mask_mid1, mask_lo, and_byte_mask, and_byte_mask,
    and_byte_mask, and_byte_mask]
  rw [shiftLeft_then_shiftRight _ _ _ (by norm_num),
    shiftLeft_then_shiftRight _ _ _ (by norm_num),
    Nat.shiftLeft_shiftLeft, Nat.shiftLeft_shiftLeft]
  have hd : v % 2 ^ 8 = v / 2 ^ 0 % 2 ^ 8 := by norm_num
  rw [show (24 - 24 : Nat) = 0 by norm_num, show (16 - 8 : Nat) = 8 by norm_num,
    show (8 + 8 : Nat) = 16 by norm_num, show (0 + 24 : Nat) = 24 by norm_num]
  rw [Nat.shiftLeft_eq, Nat.shiftLeft_eq, Nat.shiftLeft_eq, Nat.shiftLeft_eq]
  rw [Nat.mul_comm _ (2 ^ 8), Nat.mul_comm _ (2 ^ 16), Nat.mul_comm _ (2 ^ 24)]
  rw [pow_zero, Nat.mul_one]
  rw [or_bytes _ _ _ _ (Nat.mod_lt _ (by norm_num)) (Nat.mod_lt _ (by norm_num))
    (Nat.mod_lt _ (by norm_num))]
  norm_num

/-- Arithmetic characterization of the 16-bit byte swap. -/
lemma be16_to_cpu_eq (v : Nat) :
    be16_to_cpu v = 2 ^ 8 * (v % 2 ^ 8) + v / 2 ^ 8 % 2 ^ 8 := by
  unfold be16_to_cpu
  rw [mask16_hi, mask16_lo, and_byte_mask, and_byte_mask]
  rw [shiftLeft_then_shiftRight _ _ _ (by norm_num), Nat.shiftLeft_shiftLeft]
  rw [show (8 - 8 : Nat) = 0 by norm_num, show (0 + 8 : Nat) = 8 by norm_num]
  rw [Nat.shiftLeft_eq, Nat.shiftLeft_eq, pow_zero, Nat.mul_one]
  have h : v / 2 ^ 8 % 2 ^ 8 < 2 ^ 8 := Nat.mod_lt _ (by norm_num)
  rw [Nat.mul_comm, Nat.lor_comm, ← Nat.mul_add_lt_is_or h]
  norm_num

/-- The 32-bit byte swap reverses the four bytes of its argument. -/
lemma be32_swap_bytes (b3 b2 b1 b0 : Nat) (h3 : b3 < 2 ^ 8) (h2 : b2 < 2 ^ 8)
    (h1 : b1 < 2 ^ 8) (h0 : b0 < 2 ^ 8) :
    be32_to_cpu (2 ^ 24 * b3 + 2 ^ 16 * b2 + 2 ^ 8 * b1 + b0) =
      2 ^ 24 * b0 + 2 ^ 16 * b1 + 2 ^ 8 * b2 + b3 := by
  rw [be32_to_cpu_eq]
  simp only [show (2 : Nat) ^ 8 = 256 by norm_num,
    show (2 : Nat) ^ 16 = 65536 by norm_num,
    show (2 : Nat) ^ 24 = 16777216 by norm_num] at *
  omega

/-- The 16-bit byte swap reverses the two bytes of its argument. -/
lemma be16_swap_bytes (b1 b0 : Nat) (h1 : b1 < 2 ^ 8) (h0 : b0 < 2 ^ 8) :
    be16_to_cpu (2 ^ 8 * b1 + b0) = 2 ^ 8 * b0 + b1 := by
  rw [be16_to_cpu_eq]
  simp only [show (2 : Nat) ^ 8 = 256 by norm_num] at *
  omega

/-- The 32-bit byte swap is an involution on 32-bit values. -/
lemma be32_involution (v : Nat) (h : v < 2 ^ 32) :
    be32_to_cpu (be32_to_cpu v) = v := by
  have hb3 : v / 2 ^ 24 < 2 ^ 8 := by
    simp only [show (2 : Nat) ^ 24 = 16777216 by norm_num,
      show (2 : Nat) ^ 8 = 256 by norm_num,
      show (2 : Nat) ^ 32 = 4294967296 by norm_num] at *
    omega
  have hb : v = 2 ^ 24 * (v / 2 ^ 24) + 2 ^ 16 * (v / 2 ^ 16 % 2 ^ 8) +
      2 ^ 8 * (v / 2 ^ 8 % 2 ^ 8) + v % 2 ^ 8 := by
    simp only [show (2 : Nat) ^ 8 = 256 by norm_num,
      show (2 : Nat) ^ 16 = 65536 by norm_num,
      show (2 : Nat) ^ 24 = 16777216 by norm_num] at *
    omega
  rw [hb, be32_swap_bytes _ _ _ _ hb3 (Nat.mod_lt _ (by norm_num))
    (Nat.mod_lt _ (by norm_num)) (Nat.mod_lt _ (by norm_num)),
    be32_swap_bytes _ _ _ _ (Nat.mod_lt _ (by norm_num))
    (Nat.mod_lt _ (by norm_num)) (Nat.mod_lt _ (by norm_num)) hb3]

/-- The 16-bit byte swap is an involution on 16-bit values. -/
lemma be16_involution (v : Nat) (h : v < 2 ^ 16) :
    be16_to_cpu (be16_to_cpu v) = v := by
  have hb1 : v / 2 ^ 8 < 2 ^ 8 := by
    simp only [show (2 : Nat) ^ 8 = 256 by norm_num,
      show (2 : Nat) ^ 16 = 65536 by norm_num] at *
    omega
  have hb : v = 2 ^ 8 * (v / 2 ^ 8) + v % 2 ^ 8 := by omega
  rw [hb, be16_swap_bytes _ _ hb1 (Nat.mod_lt _ (by norm_num)),
    be16_swap_bytes _ _ (Nat.mod_lt _ (by norm_num)) hb1]

lemma byteAt_lt (f : List Nat) (hf : WfFile f) (i : Nat) : byteAt f i < 2 ^ 8 := by
  unfold byteAt
  by_cases h : i < f.length
  · rw [List.getD_eq_getElem _ _ h]
    exact hf _ (List.getElem_mem h)
  · rw [List.getD_eq_default _ _ (by omega)]
    norm_num

/-- On a well-formed stream, byte-swapping a raw little-endian load gives
the big-endian interpretation of the same four bytes. -/
lemma be32_leU32At (f : List Nat) (hf : WfFile f) (p : Nat) :
    be32_to_cpu (leU32At f p) = beU32At f p := by
  have h : leU32At f p =
      2 ^ 24 * byteAt f (p + 3) + 2 ^ 16 * byteAt f (p + 2) +
        2 ^ 8 * byteAt f (p + 1) + byteAt f p := by
    unfold leU32At
    ring
  rw [h, be32_swap_bytes _ _ _ _ (byteAt_lt f hf _) (byteAt_lt f hf _)
    (byteAt_lt f hf _) (byteAt_lt f hf _)]
  unfold beU32At
  ring

/-- The entries produced by the scan loop, in file order. -/
lemma scanOptionalHeaders_entries (f : List Nat) (fuel : Nat) : ∀ pos : Nat,
    (scanOptionalHeaders f pos fuel).1 =
      (List.range (min fuel ((f.length - pos) / 8))).map
        (fun i => (be32_to_cpu (leU32At f (pos + 8 * i)),
                   be32_to_cpu (leU32At f (pos + 8 * i + 4)))) := by
  induction fuel with
  | zero => intro pos; simp [scanOptionalHeaders]
  | succ fuel ih =>
    intro pos
    by_cases h8 : pos + 8 ≤ f.length
    · have h4 : pos + 4 ≤ f.length := by omega
      have hmin : min (fuel + 1) ((f.length - pos) / 8) =
          min fuel ((f.length - (pos + 8)) / 8) + 1 := by omega
      rw [scanOptionalHeaders, if_pos h4, if_pos h8]
      simp only []
      rw [ih (pos + 8), hmin, List.range_succ_eq_map, List.map_cons,
        List.map_map]
      congr 1
      apply List.map_congr_left
      intro a _
      show (be32_to_cpu (leU32At f (pos + 8 + 8 * a)),
            be32_to_cpu (leU32At f (pos + 8 + 8 * a + 4))) =
           (be32_to_cpu (leU32At f (pos + 8 * (a + 1))),
            be32_to_cpu (leU32At f (pos + 8 * (a + 1) + 4)))
      have e1 : pos + 8 + 8 * a = pos + 8 * (a + 1) := by ring
      rw [e1]
    · have hmin : min (fuel + 1) ((f.length - pos) / 8) = 0 := by omega
      rw [hmin]
      by_cases h4 : pos + 4 ≤ f.length
      · rw [scanOptionalHeaders, if_pos h4, if_neg h8]
        simp
      · rw [scanOptionalHeaders, if_neg h4]
        simp

/-- The scan loop ends via `break` exactly when fewer complete entries are
available than the iteration bound asks for. -/
lemma scanOptionalHeaders_break (f : List Nat) (fuel : Nat) : ∀ pos : Nat,
    (scanOptionalHeaders f pos fuel).2 =
      decide ((f.length - pos) / 8 < fuel) := by
  induction fuel with
  | zero => intro pos; simp [scanOptionalHeaders]
  | succ fuel ih =>
    intro pos
    by_cases h8 : pos + 8 ≤ f.length
    · have h4 : pos + 4 ≤ f.length := by omega
      rw [scanOptionalHeaders, if_pos h4, if_pos h8]
      simp only []
      rw [ih (pos + 8)]
      have : ((f.length - (pos + 8)) / 8 < fuel) ↔
          ((f.length - pos) / 8 < fuel + 1) := by omega
      simp [this]
    · have hz : (f.length - pos) / 8 = 0 := by omega
      by_cases h4 : pos + 4 ≤ f.length
      · rw [scanOptionalHeaders, if_pos h4, if_neg h8]
        simp [hz]
      · rw [scanOptionalHeaders, if_neg h4]
        simp [hz]

/-- Number of entries the scan decodes. -/
lemma scanOptionalHeaders_length (f : List Nat) (pos fuel : Nat) :
    (scanOptionalHeaders f pos fuel).1.length =
      min fuel ((f.length - pos) / 8) := by
  rw [scanOptionalHeaders_entries, List.length_map, List.length_range]

/-- The FILE_FORMAT_INFO fold keeps the value of the last matching entry:
it equals a search through the reversed entry list. -/
lemma ffiFold_eq_find (es : List (Nat × Nat)) :
    ffiFold es =
      match es.reverse.find? (fun e => e.1 == XEX_HEADER_FILE_FORMAT_INFO) with
      | some e => (e.2, true)
      | none => (0, false) := by
  unfold ffiFold
  rw [← List.foldr_reverse]
  generalize es.reverse = l
  induction l with
  | nil => rfl
  | cons e l ih =>
    by_cases h : e.1 = XEX_HEADER_FILE_FORMAT_INFO
    · simp [List.find?_cons, h]
    · simp only [List.foldr_cons, List.find?_cons]
      rw [if_neg h]
      have hb : (e.1 == XEX_HEADER_FILE_FORMAT_INFO) = false := by
        simp [h]
      rw [hb]
      exact ih

lemma readHeader_some (f : List Nat) (h : 24 ≤ f.length) :
    readHeader f = some ⟨leU32At f 0, leU32At f 4, leU32At f 8, leU32At f 12,
      leU32At f 16, leU32At f 20⟩ := by
  unfold readHeader
  rw [if_pos h]

lemma analyze_short (f : List Nat) (vb se : Bool) (h : f.length < 24) :
    analyze_xex_file f vb se =
      ⟨.fatalTruncatedHeader, 1, false, [], false, 0, false, none,
        .notAttempted⟩ := by
  unfold analyze_xex_file
  rw [if_pos h]

lemma analyze_badMagic (f : List Nat) (vb se : Bool) (h24 : 24 ≤ f.length)
    (hm : be32_to_cpu (leU32At f 0) ≠ XEX2_MAGIC) :
    analyze_xex_file f vb se =
      ⟨.fatalBadMagic XEX2_MAGIC (be32_to_cpu (leU32At f 0)), 1, false, [],
        false, 0, false, none, .notAttempted⟩ := by
  unfold analyze_xex_file
  rw [if_neg (by omega), if_pos hm]

lemma analyze_success (f : List Nat) (vb se : Bool) (h24 : 24 ≤ f.length)
    (hm : be32_to_cpu (leU32At f 0) = XEX2_MAGIC) :
    analyze_xex_file f vb se =
      ⟨.success ⟨leU32At f 0, leU32At f 4, leU32At f 8, leU32At f 12,
          leU32At f 16, leU32At f 20⟩, 0,
        decide (0 < optCount f ∧ optCount f < MAX_OPTIONAL_HEADERS),
        (scanStep f).1, (scanStep f).2,
        (ffiFold (scanStep f).1).1, (ffiFold (scanStep f).1).2,
        (if vb = true ∧ (0 < optCount f ∧ optCount f < MAX_OPTIONAL_HEADERS) ∧
            DISPLAY_HEADER_LIMIT < optCount f then
          some (optCount f - DISPLAY_HEADER_LIMIT)
        else none),
        (if (ffiFold (scanStep f).1).2 = true ∧ (se = true ∨ vb = true) then
          decodeFileFormatInfo f (ffiFold (scanStep f).1).1
        else .notAttempted)⟩ := by
  unfold analyze_xex_file
  rw [if_neg (by omega), if_neg (not_not_intro hm)]

/-- The two output flags have no influence on any result component other
than the display note and whether the descriptor decode is attempted. -/
lemma analyze_flags_core (f : List Nat) (vb se vb' se' : Bool) :
    (analyze_xex_file f vb se).outcome = (analyze_xex_file f vb' se').outcome ∧
    (analyze_xex_file f vb se).exitCode = (analyze_xex_file f vb' se').exitCode ∧
    (analyze_xex_file f vb se).scanRan = (analyze_xex_file f vb' se').scanRan ∧
    (analyze_xex_file f vb se).entries = (analyze_xex_file f vb' se').entries ∧
    (analyze_xex_file f vb se).scanTruncated =
      (analyze_xex_file f vb' se').scanTruncated ∧
    (analyze_xex_file f vb se).ffiOffset =
      (analyze_xex_file f vb' se').ffiOffset ∧
    (analyze_xex_file f vb se).hasEncryptionInfo =
      (analyze_xex_file f vb' se').hasEncryptionInfo := by
  by_cases h24 : f.length < 24
  · rw [analyze_short f vb se h24, analyze_short f vb' se' h24]
    exact ⟨rfl, rfl, rfl, rfl, rfl, rfl, rfl⟩
  · by_cases hm : be32_to_cpu (leU32At f 0) = XEX2_MAGIC
    · rw [analyze_success f vb se (by omega) hm,
        analyze_success f vb' se' (by omega) hm]
      exact ⟨rfl, rfl, rfl, rfl, rfl, rfl, rfl⟩
    · rw [analyze_badMagic f vb se (by omega) hm,
        analyze_badMagic f vb' se' (by omega) hm]
      exact ⟨rfl, rfl, rfl, rfl, rfl, rfl, rfl⟩

/-- Two runs agreeing on whether any flag is set also agree on the
descriptor decode. -/
lemma analyze_flags_descriptor (f : List Nat) (vb se vb' se' : Bool)
    (h : (se || vb) = (se' || vb')) :
    (analyze_xex_file f vb se).descriptor =
      (analyze_xex_file f vb' se').descriptor := by
  by_cases h24 : f.length < 24
  · rw [analyze_short f vb se h24, analyze_short f vb' se' h24]
  · by_cases hm : be32_to_cpu (leU32At f 0) = XEX2_MAGIC
    · rw [analyze_success f vb se (by omega) hm,
        analyze_success f vb' se' (by omega) hm]
      have hpq : ((ffiFold (scanStep f).1).2 = true ∧ (se = true ∨ vb = true)) ↔
          ((ffiFold (scanStep f).1).2 = true ∧ (se' = true ∨ vb' = true)) := by
        cases se <;> cases vb <;> cases se' <;> cases vb' <;> simp_all
      show (if (ffiFold (scanStep f).1).2 = true ∧ (se = true ∨ vb = true) then
          decodeFileFormatInfo f (ffiFold (scanStep f).1).1
        else DescResult.notAttempted) =
        (if (ffiFold (scanStep f).1).2 = true ∧ (se' = true ∨ vb' = true) then
          decodeFileFormatInfo f (ffiFold (scanStep f).1).1
        else DescResult.notAttempted)
      exact if_congr hpq rfl rfl
    · rw [analyze_badMagic f vb se (by omega) hm,
        analyze_badMagic f vb' se' (by omega) hm]

/-- Claim C1 is false as stated: with two FILE_FORMAT_INFO entries of
values 0x100 and 0x200, the remembered descriptor offset is 0x200 — the
later duplicate overwrites the first match, so later duplicates do have an
effect. -/
theorem c1_counterexample :
    (analyze_xex_file exC1 false false).entries =
      [(0x3FF, 0x100), (0x3FF, 0x200)] ∧
    (analyze_xex_file exC1 false false).ffiOffset = 0x200 ∧
    (analyze_xex_file exC1 false false).ffiOffset ≠ 0x100 := by decide

/-- Claim C1 (amended): each scanned FILE_FORMAT_INFO entry overwrites the
remembered offset, so the value of the LAST such entry among the scanned
entries is the offset the descriptor decode uses (0 and not-found when no
entry matches). -/
theorem c1_last_ffi_wins (f : List Nat) (vb se : Bool) :
    (analyze_xex_file f vb se).hasEncryptionInfo =
      ((analyze_xex_file f vb se).entries.reverse.find?
        (fun e => e.1 == XEX_HEADER_FILE_FORMAT_INFO)).isSome ∧
    (analyze_xex_file f vb se).ffiOffset =
      (((analyze_xex_file f vb se).entries.reverse.find?
        (fun e => e.1 == XEX_HEADER_FILE_FORMAT_INFO)).map Prod.snd).getD 0 := by
  by_cases h24 : f.length < 24
  · rw [analyze_short f vb se h24]
    exact ⟨rfl, rfl⟩
  · by_cases hm : be32_to_cpu (leU32At f 0) = XEX2_MAGIC
    · rw [analyze_success f vb se (by omega) hm]
      show (ffiFold (scanStep f).1).2 = _ ∧ (ffiFold (scanStep f).1).1 = _
      rw [ffiFold_eq_find]
      cases hfind : (scanStep f).1.reverse.find?
          (fun e => e.1 == XEX_HEADER_FILE_FORMAT_INFO) with
      | none => exact ⟨rfl, rfl⟩
      | some e => exact ⟨rfl, rfl⟩
    · rw [analyze_badMagic f vb se (by omega) hm]
      exact ⟨rfl, rfl⟩

/-- Claim C2 is false as stated: a declared count of 100 — which the claim
places among the counts 1 through 100 that run the scan — skips the table
scan entirely (the code requires `opt_count < 100`, not `≤`), though still
without fatal error. -/
theorem c2_counterexample :
    optCount exC2 = 100 ∧
    (analyze_xex_file exC2 false false).scanRan = false ∧
    (analyze_xex_file exC2 false false).entries = [] ∧
    (analyze_xex_file exC2 false false).exitCode = 0 := by decide

/-- Claim C2 (amended): for a stream whose primary header decodes with a
valid magic, the optional-header scan runs exactly when the declared count
is between 1 and 99; zero and any count of 100 or more (150 included) skip
scanning, and the run stays fatal-free either way. -/
theorem c2_scan_condition (f : List Nat) (vb se : Bool) (h24 : 24 ≤ f.length)
    (hm : be32_to_cpu (leU32At f 0) = XEX2_MAGIC) :
    ((analyze_xex_file f vb se).scanRan = true ↔
      (0 < optCount f ∧ optCount f < MAX_OPTIONAL_HEADERS)) ∧
    (analyze_xex_file f vb se).exitCode = 0 := by
  rw [analyze_success f vb se h24 hm]
  exact ⟨by simp, rfl⟩

/-- Witness for C2 at the spec's own example: declared count 150 skips the
scan, with exit code 0. -/
theorem c2_witness :
    ((analyze_xex_file (mkPrimaryHeader 150) false false).scanRan = true ↔
      (0 < optCount (mkPrimaryHeader 150) ∧
        optCount (mkPrimaryHeader 150) < MAX_OPTIONAL_HEADERS)) ∧
    (analyze_xex_file (mkPrimaryHeader 150) false false).exitCode = 0 :=
  c2_scan_condition (mkPrimaryHeader 150) false false (by decide) (by decide)

/-- Claim C3: the 32-bit and 16-bit byte-order reversal helpers are
involutions on their value ranges, hence bijections of those ranges. -/
theorem c3_byte_order_involution :
    (∀ v : Nat, v < 2 ^ 32 → be32_to_cpu (be32_to_cpu v) = v) ∧
    (∀ v : Nat, v < 2 ^ 16 → be16_to_cpu (be16_to_cpu v) = v) ∧
    Set.BijOn be32_to_cpu (Set.Iio (2 ^ 32)) (Set.Iio (2 ^ 32)) ∧
    Set.BijOn be16_to_cpu (Set.Iio (2 ^ 16)) (Set.Iio (2 ^ 16)) := by
  have hm32 : Set.MapsTo be32_to_cpu (Set.Iio (2 ^ 32)) (Set.Iio (2 ^ 32)) := by
    intro v _
    have := be32_to_cpu_eq v
    simp only [Set.mem_Iio] at *
    simp only [show (2 : Nat) ^ 8 = 256 by norm_num,
      show (2 : Nat) ^ 16 = 65536 by norm_num,
      show (2 : Nat) ^ 24 = 16777216 by norm_num,
      show (2 : Nat) ^ 32 = 4294967296 by norm_num] at *
    omega
  have hm16 : Set.MapsTo be16_to_cpu (Set.Iio (2 ^ 16)) (Set.Iio (2 ^ 16)) := by
    intro v _
    have := be16_to_cpu_eq v
    simp only [Set.mem_Iio] at *
    simp only [show (2 : Nat) ^ 8 = 256 by norm_num,
      show (2 : Nat) ^ 16 = 65536 by norm_num] at *
    omega
  refine ⟨be32_involution, be16_involution, ?_, ?_⟩
  · exact Set.InvOn.bijOn
      ⟨fun v hv => be32_involution v hv, fun v hv => be32_involution v hv⟩
      hm32 hm32
  · exact Set.InvOn.bijOn
      ⟨fun v hv => be16_involution v hv, fun v hv => be16_involution v hv⟩
      hm16 hm16

/-- Witness for C3 at concrete values. -/
theorem c3_witness :
    be32_to_cpu (be32_to_cpu 0x12345678) = 0x12345678 ∧
    be16_to_cpu (be16_to_cpu 0x1234) = 0x1234 :=
  ⟨c3_byte_order_involution.1 0x12345678 (by norm_num),
   c3_byte_order_involution.2.1 0x1234 (by norm_num)⟩

/-- Claim C4: on a well-formed stream of at least 24 bytes, a big-endian
leading magic of 0x58455832 decodes the primary header; any other magic
fails fatally before anything else is decoded, with the error carrying
both the expected constant and the observed value. -/
theorem c4_magic_check (f : List Nat) (vb se : Bool) (hwf : WfFile f)
    (h24 : 24 ≤ f.length) :
    (beU32At f 0 = XEX2_MAGIC →
      readHeader f = some ⟨leU32At f 0, leU32At f 4, leU32At f 8,
        leU32At f 12, leU32At f 16, leU32At f 20⟩ ∧
      (analyze_xex_file f vb se).outcome = .success ⟨leU32At f 0, leU32At f 4,
        leU32At f 8, leU32At f 12, leU32At f 16, leU32At f 20⟩ ∧
      (analyze_xex_file f vb se).exitCode = 0) ∧
    (beU32At f 0 ≠ XEX2_MAGIC →
      analyze_xex_file f vb se =
        ⟨.fatalBadMagic XEX2_MAGIC (beU32At f 0), 1, false, [], false, 0,
          false, none, .notAttempted⟩) := by
  have hbe : be32_to_cpu (leU32At f 0) = beU32At f 0 := be32_leU32At f hwf 0
  constructor
  · intro h
    refine ⟨readHeader_some f h24, ?_, ?_⟩
    · rw [analyze_success f vb se h24 (by rw [hbe]; exact h)]
    · rw [analyze_success f vb se h24 (by rw [hbe]; exact h)]
  · intro h
    rw [analyze_badMagic f vb se h24 (by rw [hbe]; exact h), hbe]

/-- Witness for C4: a minimal valid-magic file decodes successfully. -/
theorem c4_witness :
    readHeader (mkPrimaryHeader 0) = some ⟨leU32At (mkPrimaryHeader 0) 0,
      leU32At (mkPrimaryHeader 0) 4, leU32At (mkPrimaryHeader 0) 8,
      leU32At (mkPrimaryHeader 0) 12, leU32At (mkPrimaryHeader 0) 16,
      leU32At (mkPrimaryHeader 0) 20⟩ ∧
    (analyze_xex_file (mkPrimaryHeader 0) false false).outcome =
      .success ⟨leU32At (mkPrimaryHeader 0) 0, leU32At (mkPrimaryHeader 0) 4,
        leU32At (mkPrimaryHeader 0) 8, leU32At (mkPrimaryHeader 0) 12,
        leU32At (mkPrimaryHeader 0) 16, leU32At (mkPrimaryHeader 0) 20⟩ ∧
    (analyze_xex_file (mkPrimaryHeader 0) false false).exitCode = 0 :=
  (c4_magic_check (mkPrimaryHeader 0) false false (by decide) (by decide)).1
    (by decide)

/-- Claim C5: an input shorter than the 24-byte primary header fails
fatally at the header read with exit status 1, with no scan and no
descriptor decode. -/
theorem c5_truncated_primary (f : List Nat) (vb se : Bool)
    (h : f.length < 24) :
    analyze_xex_file f vb se =
      ⟨.fatalTruncatedHeader, 1, false, [], false, 0, false, none,
        .notAttempted⟩ :=
  analyze_short f vb se h

/-- Witness for C5 on a 2-byte input. -/
theorem c5_witness :
    analyze_xex_file [0x58, 0x45] false false =
      ⟨.fatalTruncatedHeader, 1, false, [], false, 0, false, none,
        .notAttempted⟩ :=
  c5_truncated_primary [0x58, 0x45] false false (by decide)

/-- Claim C6: when the sanity check passes, the scan decodes exactly
min(count, 20, complete-entries-available) entries, in file order, ends
via break exactly when the available entries run out first, and the run
stays non-fatal. -/
theorem c6_scan_bounded (f : List Nat) (vb se : Bool) (h24 : 24 ≤ f.length)
    (hm : be32_to_cpu (leU32At f 0) = XEX2_MAGIC)
    (hc : 0 < optCount f) (hc2 : optCount f < MAX_OPTIONAL_HEADERS) :
    (analyze_xex_file f vb se).entries =
      (List.range (min (min (optCount f) DISPLAY_HEADER_LIMIT)
        ((f.length - 24) / 8))).map
        (fun i => (be32_to_cpu (leU32At f (24 + 8 * i)),
                   be32_to_cpu (leU32At f (24 + 8 * i + 4)))) ∧
    (analyze_xex_file f vb se).entries.length =
      min (min (optCount f) DISPLAY_HEADER_LIMIT) ((f.length - 24) / 8) ∧
    (analyze_xex_file f vb se).scanTruncated =
      decide ((f.length - 24) / 8 < min (optCount f) DISPLAY_HEADER_LIMIT) ∧
    (analyze_xex_file f vb se).exitCode = 0 := by
  rw [analyze_success f vb se h24 hm]
  show (scanStep f).1 = _ ∧ (scanStep f).1.length = _ ∧ (scanStep f).2 = _ ∧
    (0 : Nat) = 0
  unfold scanStep
  rw [if_pos ⟨hc, hc2⟩]
  exact ⟨scanOptionalHeaders_entries f _ 24, scanOptionalHeaders_length f 24 _,
    scanOptionalHeaders_break f _ 24, rfl⟩

/-- Witness for C6 at the spec's example: declared count 5 with only 3
complete entries decodes exactly 3 entries, non-fatally, noting the early
break. -/
theorem c6_witness :
    (analyze_xex_file exC6 false false).entries.length = 3 ∧
    (analyze_xex_file exC6 false false).scanTruncated = true ∧
    (analyze_xex_file exC6 false false).exitCode = 0 := by
  have h := c6_scan_bounded exC6 false false (by decide) (by decide)
    (by decide) (by decide)
  exact ⟨h.2.1.trans (by decide), h.2.2.1.trans (by decide), h.2.2.2⟩

/-- Claim C7: a seek or read failure while decoding the FILE_FORMAT_INFO
descriptor is non-fatal: the run still succeeded with exit status 0, and
the decoded header, entries and captured offset are exactly those of a run
that never attempts the descriptor. -/
theorem c7_descriptor_failure_nonfatal (f : List Nat) (vb se : Bool)
    (h : (analyze_xex_file f vb se).descriptor = .readError ∨
         (analyze_xex_file f vb se).descriptor = .seekError) :
    (analyze_xex_file f vb se).exitCode = 0 ∧
    (∃ hdr, (analyze_xex_file f vb se).outcome = .success hdr) ∧
    (analyze_xex_file f vb se).outcome = (analyze_xex_file f false false).outcome ∧
    (analyze_xex_file f vb se).entries = (analyze_xex_file f false false).entries ∧
    (analyze_xex_file f vb se).ffiOffset =
      (analyze_xex_file f false false).ffiOffset := by
  have hcore := analyze_flags_core f vb se false false
  by_cases h24 : f.length < 24
  · rw [analyze_short f vb se h24] at h
    rcases h with h | h <;> exact absurd h (by simp)
  · by_cases hm : be32_to_cpu (leU32At f 0) = XEX2_MAGIC
    · have hs := analyze_success f vb se (by omega) hm
      exact ⟨by rw [hs], ⟨_, by rw [hs]⟩, hcore.1, hcore.2.2.2.1,
        hcore.2.2.2.2.2.1⟩
    · rw [analyze_badMagic f vb se (by omega) hm] at h
      rcases h with h | h <;> exact absurd h (by simp)

/-- Witness for C7: a FILE_FORMAT_INFO offset of 0x10000 in a 32-byte file
makes the descriptor read fail, non-fatally. -/
theorem c7_witness :
    (analyze_xex_file exC7 false true).exitCode = 0 ∧
    (∃ hdr, (analyze_xex_file exC7 false true).outcome = .success hdr) ∧
    (analyze_xex_file exC7 false true).outcome =
      (analyze_xex_file exC7 false false).outcome ∧
    (analyze_xex_file exC7 false true).entries =
      (analyze_xex_file exC7 false false).entries ∧
    (analyze_xex_file exC7 false true).ffiOffset =
      (analyze_xex_file exC7 false false).ffiOffset :=
  c7_descriptor_failure_nonfatal exC7 false true (by decide)

/-- Claim C8 is false as stated: on a file whose table holds a
FILE_FORMAT_INFO entry, a run with both flags off never attempts the
descriptor decode, while a verbose run decodes it — so which structures
are decoded does depend on the flags. -/
theorem c8_counterexample :
    (analyze_xex_file exC8 false false).hasEncryptionInfo = true ∧
    (analyze_xex_file exC8 false false).descriptor = .notAttempted ∧
    (analyze_xex_file exC8 true false).descriptor ≠ .notAttempted := by decide

/-- In every run, the descriptor decode is attempted exactly when the
FILE_FORMAT_INFO entry was located and at least one flag is set; an
attempted decode reads at the captured offset. -/
lemma analyze_descriptor_char (f : List Nat) (vb se : Bool) :
    (analyze_xex_file f vb se).descriptor =
      (if (analyze_xex_file f vb se).hasEncryptionInfo = true ∧
          (se = true ∨ vb = true) then
        decodeFileFormatInfo f (analyze_xex_file f vb se).ffiOffset
      else DescResult.notAttempted) := by
  by_cases h24 : f.length < 24
  · rw [analyze_short f vb se h24, if_neg (by simp)]
  · by_cases hm : be32_to_cpu (leU32At f 0) = XEX2_MAGIC
    · rw [analyze_success f vb se (by omega) hm]
    · rw [analyze_badMagic f vb se (by omega) hm, if_neg (by simp)]

/-- Claim C8 (amended): for every pair of flag settings, the
primary-header decode, the table scan (including every decoded entry),
the captured offset and the exit status coincide — the flags never
influence them; in every run the descriptor decode is attempted exactly
when the FILE_FORMAT_INFO entry was located and at least one flag is set,
and then decodes at the captured offset; hence two runs that agree on
whether at least one flag is set also have identical descriptor
results. -/
theorem c8_flags_presentation (f : List Nat) (vb se vb' se' : Bool) :
    (analyze_xex_file f vb se).outcome = (analyze_xex_file f vb' se').outcome ∧
    (analyze_xex_file f vb se).exitCode = (analyze_xex_file f vb' se').exitCode ∧
    (analyze_xex_file f vb se).scanRan = (analyze_xex_file f vb' se').scanRan ∧
    (analyze_xex_file f vb se).entries = (analyze_xex_file f vb' se').entries ∧
    (analyze_xex_file f vb se).scanTruncated =
      (analyze_xex_file f vb' se').scanTruncated ∧
    (analyze_xex_file f vb se).ffiOffset =
      (analyze_xex_file f vb' se').ffiOffset ∧
    (analyze_xex_file f vb se).hasEncryptionInfo =
      (analyze_xex_file f vb' se').hasEncryptionInfo ∧
    ((analyze_xex_file f vb se).descriptor =
      (if (analyze_xex_file f vb se).hasEncryptionInfo = true ∧
          (se = true ∨ vb = true) then
        decodeFileFormatInfo f (analyze_xex_file f vb se).ffiOffset
      else DescResult.notAttempted)) ∧
    ((se || vb) = (se' || vb') →
      (analyze_xex_file f vb se).descriptor =
        (analyze_xex_file f vb' se').descriptor) := by
  have hcore := analyze_flags_core f vb se vb' se'
  exact ⟨hcore.1, hcore.2.1, hcore.2.2.1, hcore.2.2.2.1, hcore.2.2.2.2.1,
    hcore.2.2.2.2.2.1, hcore.2.2.2.2.2.2, analyze_descriptor_char f vb se,
    fun h => analyze_flags_descriptor f vb se vb' se' h⟩

/-- Witness for C8: on a concrete file, the verbose-only run decodes
identically to the encryption-only run, and its descriptor decode is
exactly the flag-gated decode at the captured offset. -/
theorem c8_witness :
    (analyze_xex_file exC8 true false).outcome =
      (analyze_xex_file exC8 false true).outcome ∧
    (analyze_xex_file exC8 true false).exitCode =
      (analyze_xex_file exC8 false true).exitCode ∧
    (analyze_xex_file exC8 true false).scanRan =
      (analyze_xex_file exC8 false true).scanRan ∧
    (analyze_xex_file exC8 true false).entries =
      (analyze_xex_file exC8 false true).entries ∧
    (analyze_xex_file exC8 true false).scanTruncated =
      (analyze_xex_file exC8 false true).scanTruncated ∧
    (analyze_xex_file exC8 true false).ffiOffset =
      (analyze_xex_file exC8 false true).ffiOffset ∧
    (analyze_xex_file exC8 true false).hasEncryptionInfo =
      (analyze_xex_file exC8 false true).hasEncryptionInfo ∧
    ((analyze_xex_file exC8 true false).descriptor =
      (if (analyze_xex_file exC8 true false).hasEncryptionInfo = true ∧
          (false = true ∨ true = true) then
        decodeFileFormatInfo exC8 (analyze_xex_file exC8 true false).ffiOffset
      else DescResult.notAttempted)) ∧
    (analyze_xex_file exC8 true false).descriptor =
      (analyze_xex_file exC8 false true).descriptor := by
  have h := c8_flags_presentation exC8 true false false true
  exact ⟨h.1, h.2.1, h.2.2.1, h.2.2.2.1, h.2.2.2.2.1, h.2.2.2.2.2.1,
    h.2.2.2.2.2.2.1, h.2.2.2.2.2.2.2.1, h.2.2.2.2.2.2.2.2 (by decide)⟩

/-- Claim C9 is false as stated: a run with the encryption flag but
without the verbose flag, on a declared count of 25 (above the display cap
of 20), reports nothing about entries not shown. -/
theorem c9_counterexample :
    optCount exC9 = 25 ∧
    (analyze_xex_file exC9 false true).moreHeadersNote = none := by decide

/-- Claim C9 (amended): the count of entries not shown (declared count
minus 20) is reported exactly in verbose runs whose scan ran and whose
declared count exceeds the display cap. -/
theorem c9_more_note_verbose_only (f : List Nat) (vb se : Bool)
    (h24 : 24 ≤ f.length) (hm : be32_to_cpu (leU32At f 0) = XEX2_MAGIC) :
    (analyze_xex_file f vb se).moreHeadersNote =
      (if vb = true ∧ (0 < optCount f ∧ optCount f < MAX_OPTIONAL_HEADERS) ∧
          DISPLAY_HEADER_LIMIT < optCount f then
        some (optCount f - DISPLAY_HEADER_LIMIT)
      else none) := by
  rw [analyze_success f vb se h24 hm]

/-- Witness for C9: a verbose run with declared count 25 reports 5 entries
not shown. -/
theorem c9_witness :
    (analyze_xex_file exC9 true false).moreHeadersNote = some 5 :=
  (c9_more_note_verbose_only exC9 true false (by decide) (by decide)).trans
    (by decide)

/-- Claim C10: whenever the scan captured a FILE_FORMAT_INFO entry, the
remembered offset is exactly that entry's raw value — no validation is
applied to it — and any attempted descriptor decode seeks to exactly that
offset. -/
theorem c10_offset_unvalidated (f : List Nat) (vb se : Bool)
    (h : (analyze_xex_file f vb se).hasEncryptionInfo = true) :
    (∃ e ∈ (analyze_xex_file f vb se).entries,
      e.1 = XEX_HEADER_FILE_FORMAT_INFO ∧
        e.2 = (analyze_xex_file f vb se).ffiOffset) ∧
    ((analyze_xex_file f vb se).descriptor ≠ DescResult.notAttempted →
      (analyze_xex_file f vb se).descriptor =
        decodeFileFormatInfo f (analyze_xex_file f vb se).ffiOffset) := by
  by_cases h24 : f.length < 24
  · rw [analyze_short f vb se h24] at h
    exact absurd h (by simp)
  · by_cases hm : be32_to_cpu (leU32At f 0) = XEX2_MAGIC
    · have hs := analyze_success f vb se (by omega) hm
      rw [hs] at h ⊢
      show (∃ e ∈ (scanStep f).1, e.1 = XEX_HEADER_FILE_FORMAT_INFO ∧
          e.2 = (ffiFold (scanStep f).1).1) ∧ _
      have hfold := ffiFold_eq_find (scanStep f).1
      constructor
      · cases hfind : (scanStep f).1.reverse.find?
            (fun e => e.1 == XEX_HEADER_FILE_FORMAT_INFO) with
        | none =>
          rw [hfind] at hfold
          have : (ffiFold (scanStep f).1).2 = false := by rw [hfold]
          simp only [show (analyze_xex_file f vb se).hasEncryptionInfo =
            (ffiFold (scanStep f).1).2 from by rw [hs]] at h
          rw [h] at this
          exact absurd this (by simp)
        | some e =>
          refine ⟨e, ?_, ?_, ?_⟩
          · exact List.mem_reverse.mp (List.mem_of_find?_eq_some hfind)
          · have := List.find?_some hfind
            simpa using this
          · rw [hfind] at hfold
            rw [hfold]
      · intro hd
        by_cases hcond : (ffiFold (scanStep f).1).2 = true ∧
            (se = true ∨ vb = true)
        · show (if (ffiFold (scanStep f).1).2 = true ∧
              (se = true ∨ vb = true) then
            decodeFileFormatInfo f (ffiFold (scanStep f).1).1
          else DescResult.notAttempted) = _
          rw [if_pos hcond]
        · exact absurd (by show (if _ then _ else _) = _; rw [if_neg hcond]) hd
    · rw [analyze_badMagic f vb se (by omega) hm] at h
      exact absurd h (by simp)

/-- Witness for C10: an offset of 0 — inside the primary header itself —
is captured and used verbatim by the descriptor decode. -/
theorem c10_witness :
    (∃ e ∈ (analyze_xex_file exC10 false true).entries,
      e.1 = XEX_HEADER_FILE_FORMAT_INFO ∧
        e.2 = (analyze_xex_file exC10 false true).ffiOffset) ∧
    ((analyze_xex_file exC10 false true).descriptor ≠ DescResult.notAttempted →
      (analyze_xex_file exC10 false true).descriptor =
        decodeFileFormatInfo exC10 (analyze_xex_file exC10 false true).ffiOffset) :=
  c10_offset_unvalidated exC10 false true (by decide)
